import Mathlib

/-!
Shallow embedding of the go-gin-websocket repository
(src/services/websocket/ws.go and src/main.go).

The Dispatcher (Hub) is a single-threaded event loop over three intake
channels: register, unregister, broadcast (ws.go, `Hub.Run`, lines 64-94).
We model one loop iteration as a `step` on an explicit hub state and a run
of the loop as a fold over a list of events.  Per-connection state records
the buffered send channel (a FIFO list, head = oldest element), whether
the channel has been closed, how many close events were applied to it, and
whether the connection is currently in the live map `h.clients`.
Connections are identified by a natural number standing for the Go
pointer identity of the `client` struct.

Timing constants, the read/write pumps' per-iteration frame handling, and
the administrative broadcast handler of src/main.go are embedded further
below.
-/

namespace GoGinWs

/-- Raw websocket payload bytes (Go `[]byte`). -/
abbrev Payload := List Nat

/-- Go `time.Nanosecond` as the base duration unit (Go durations count
nanoseconds). -/
def nanosecond : Nat := 1

/-- Go `time.Second` in nanoseconds. -/
def second : Nat := 1000000000

/-- ws.go line 13: `writeWait = 10 * time.Second`. -/
def writeWait : Nat := 10 * second

/-- ws.go line 14: `pongWait = 60 * time.Second` — the read loop's
heartbeat (pong) timeout. -/
def pongWait : Nat := 60 * second

/-- ws.go line 15: `pingPeriod = (pongWait * 9) / 10` — the write loop's
ping interval. -/
def pingPeriod : Nat := (pongWait * 9) / 10

/-- ws.go lines 19-24, `Options`.  Go `int` fields are modelled as `Int`
(the zero value 0 and negative values are both "unset" per
`withDefaults`); `CheckOrigin` is a Go function pointer, `nil` modelled
as `none`, with the `*http.Request` argument abstracted to a `Nat`
request identifier. -/
structure Options where
  SendCap : Int
  MaxMessageSize : Int
  EnableCompression : Bool
  CheckOrigin : Option (Nat → Bool)

/-- The Go zero value `Options{}`. -/
def zeroOptions : Options :=
  { SendCap := 0, MaxMessageSize := 0, EnableCompression := false,
    CheckOrigin := none }

/-- ws.go lines 26-36, `(o *Options).withDefaults()`: `SendCap <= 0`
becomes 128, `MaxMessageSize <= 0` becomes 8192, a nil `CheckOrigin`
becomes the constant-true predicate.  Modelled as a pure function
(the Go method mutates through a pointer). -/
def Options.withDefaults (o : Options) : Options :=
  let o1 := if o.SendCap ≤ 0 then { o with SendCap := 128 } else o
  let o2 := if o1.MaxMessageSize ≤ 0 then { o1 with MaxMessageSize := 8192 } else o1
  match o2.CheckOrigin with
  | none => { o2 with CheckOrigin := some (fun _ => true) }
  | some _ => o2

/-- State of one `client`'s buffered send channel together with its
membership in the hub's live map.
* `queue`: the buffered contents of `c.send`, head = oldest;
* `closed`: whether `close(c.send)` has been executed;
* `closeEvents`: how many times `close(c.send)` was executed (Go would
  panic on the second; we count so that "closed at most once" is a
  provable statement);
* `live`: whether the connection is currently a key of `h.clients`. -/
structure Conn where
  id : Nat
  queue : List Payload
  closed : Bool
  closeEvents : Nat
  live : Bool
deriving DecidableEq, Repr

/-- ws.go lines 39-47, `Hub`: the live client map plus configuration.
The three intake channels are not part of the state — the event list fed
to `Hub.run` stands for the stream of values the loop receives on them.
All connection states ever created are kept in `conns` (a Go channel
outlives its deletion from the map); `Conn.live` marks membership in
`h.clients`. -/
structure Hub where
  opts : Options
  conns : List Conn

/-- The send-channel capacity used for every client's channel
(`make(chan []byte, h.opts.SendCap)`, ws.go line 177). -/
def Hub.cap (h : Hub) : Nat := h.opts.SendCap.toNat

/-- ws.go lines 49-62, `NewHub`: a nil `opts` pointer (modelled `none`)
yields the zero `Options`; defaults are applied, the client map starts
empty. -/
def NewHub (opts : Option Options) : Hub :=
  let o := (match opts with | some o => o | none => zeroOptions).withDefaults
  { opts := o, conns := [] }

/-- One value arriving on one of the Hub's three intake channels
(ws.go lines 67, 69, 74). -/
inductive Event where
  | register (i : Nat)
  | unregister (i : Nat)
  | broadcast (m : Payload)
deriving DecidableEq, Repr

/-- Set `live := true` on the first connection with the given id
(Go `h.clients[c] = true` on a pointer already seen). -/
def setLive (i : Nat) : List Conn → List Conn
  | [] => []
  | c :: cs => if c.id = i then { c with live := true } :: cs else c :: setLive i cs

/-- ws.go lines 67-68: `case c := <-h.register: h.clients[c] = true`.
A fresh client (one never seen before) enters with the fresh empty
channel `ServeWs` built for it (ws.go line 177); re-registering a known
identity only re-inserts it into the map. -/
def Hub.doRegister (h : Hub) (i : Nat) : Hub :=
  if h.conns.any (fun c => c.id = i) then
    { h with conns := setLive i h.conns }
  else
    { h with conns := h.conns ++
        [{ id := i, queue := [], closed := false, closeEvents := 0, live := true }] }

/-- ws.go lines 69-73: `case c := <-h.unregister: if h.clients[c] {
delete(h.clients, c); close(c.send) }`. -/
def Hub.doUnregister (h : Hub) (i : Nat) : Hub :=
  { h with conns := h.conns.map (fun c =>
      if c.id = i ∧ c.live = true then
        { c with live := false, closed := true, closeEvents := c.closeEvents + 1 }
      else c) }

/-- ws.go lines 76-90: the body of the broadcast fan-out loop for one
client `c`. Translated select by select:
* `case c.send <- msg:` — a non-blocking send on a buffered channel
  succeeds exactly when the buffer is not full;
* `default:` — drop the oldest element if one is buffered
  (`select { case <-c.send: default: }`) and retry the send once;
* if the retry's `default:` is taken, `close(c.send)` and
  `delete(h.clients, c)`.
The loop only reaches clients in `h.clients`, whose channels the
dispatcher has never closed (every `close` is paired with a `delete`),
so the panic of sending on a closed channel does not arise. -/
def sendStep (cap : Nat) (msg : Payload) (c : Conn) : Conn :=
  if c.queue.length < cap then
    { c with queue := c.queue ++ [msg] }
  else
    let c1 := match c.queue with
      | [] => c
      | _ :: rest => { c with queue := rest }
    if c1.queue.length < cap then
      { c1 with queue := c1.queue ++ [msg] }
    else
      { c1 with closed := true, closeEvents := c1.closeEvents + 1, live := false }

/-- ws.go lines 74-91: `case msg := <-h.broadcast:` applies the
backpressure step to every client of `h.clients` (map iteration order is
immaterial: each step touches only its own client). -/
def Hub.doBroadcast (h : Hub) (msg : Payload) : Hub :=
  { h with conns := h.conns.map (fun c => if c.live = true then sendStep h.cap msg c else c) }

/-- One iteration of the `for { select { ... } }` loop of `Hub.Run`
(ws.go lines 64-94). -/
def Hub.step (h : Hub) : Event → Hub
  | .register i => h.doRegister i
  | .unregister i => h.doUnregister i
  | .broadcast m => h.doBroadcast m

/-- A finite run of the Dispatcher loop over the sequence of events it
receives, in arrival order. -/
def Hub.run (h : Hub) : List Event → Hub :=
  List.foldl Hub.step h

/-- Look a connection up by identity (first match). -/
def findConn (h : Hub) (i : Nat) : Option Conn :=
  h.conns.find? (fun c => c.id = i)

/-! ### Spec-side rendering of the broadcast backpressure policy

For the refinement claim about the three-step policy, a second definition
written from the specification's own words (§4.1, Broadcast), to be
compared with `sendStep`, which was translated from the Go source. -/

/-- Spec §4.1 step 1: "attempt a non-blocking enqueue of `payload` onto
`c`'s Outbound Queue" — succeeds exactly when the queue is open and not
full. -/
def specTryEnqueue (cap : Nat) (msg : Payload) (c : Conn) : Option Conn :=
  if c.closed = false ∧ c.queue.length < cap then
    some { c with queue := c.queue ++ [msg] }
  else none

/-- Spec §4.1 step 2: "drop exactly one oldest queued payload
(best-effort …; if no payload was actually available, skip this step)". -/
def specDropOldest (c : Conn) : Conn :=
  match c.queue with
  | [] => c
  | _ :: rest => { c with queue := rest }

/-- Spec §4.1, the three-step Broadcast policy for one live connection,
written from the spec's words: try the enqueue; if it fails, drop the
oldest (best-effort) and retry once; if the retry still fails (queue
still full or closed), close the Outbound Queue and remove the
connection from the live set. -/
def broadcastPolicySpec (cap : Nat) (msg : Payload) (c : Conn) : Conn :=
  match specTryEnqueue cap msg c with
  | some c' => c'
  | none =>
    let c1 := specDropOldest c
    match specTryEnqueue cap msg c1 with
    | some c' => c'
    | none => { c1 with closed := true, closeEvents := c1.closeEvents + 1, live := false }

/-! ### Read and write pump frame handling (ws.go lines 109-157)

The per-iteration data transformations of the two pump loops, as far as
the claims need them: which bytes the read loop forwards, and in which
frame type the write loop sends a payload. -/

/-- Gorilla websocket message-type code `TextMessage`. -/
def TextMessage : Nat := 1

/-- Gorilla websocket message-type code `BinaryMessage`. -/
def BinaryMessage : Nat := 2

/-- Gorilla websocket message-type code `CloseMessage`. -/
def CloseMessage : Nat := 8

/-- Gorilla websocket message-type code `PingMessage`. -/
def PingMessage : Nat := 9

/-- A websocket data frame: message-type code plus payload bytes. -/
structure Frame where
  typ : Nat
  data : Payload
deriving DecidableEq, Repr

/-- ws.go lines 122-128: one successful iteration of `readPump`'s loop.
`_, message, err := c.conn.ReadMessage()` discards the inbound
message-type code; the payload bytes are forwarded verbatim to
`c.hub.broadcast`. -/
def readPumpForward (f : Frame) : Payload := f.data

/-- ws.go lines 140-149: the frame `writePump` writes for one receive on
`c.send`.  `none` models `ok == false` (channel closed by the hub): a
close frame with empty body.  `some m` models a delivered payload:
always written as a `TextMessage` frame (line 147), whatever frame type
the bytes originally arrived in. -/
def writePumpFrame : Option Payload → Frame
  | none => { typ := CloseMessage, data := [] }
  | some m => { typ := TextMessage, data := m }

/-! ### Administrative broadcast endpoint (src/main.go lines 13-33) -/

/-- The JSON body of a request to POST /api/broadcast, as far as the
binding of `broadcastReq` observes it: either the `message` field is
absent (or the body is otherwise unbindable), or it is present and bound
to a string. -/
inductive BroadcastBody where
  | noMessage
  | message (s : String)
deriving DecidableEq, Repr

/-- main.go lines 13-15 and 20: `c.ShouldBindJSON(&req)` for
`broadcastReq { Message string `json:"message" binding:"required"` }`.
Gin's `binding:"required"` (go-playground/validator) fails when the
field is absent and also when it holds the type's zero value, so a
present-but-empty `"message": ""` fails the bind exactly like a missing
field. -/
def shouldBindJSON : BroadcastBody → Except String String
  | .noMessage => .error "missing message"
  | .message s => if s = "" then .error "missing message" else .ok s

/-- A marshalled flat JSON object of string fields, as the association
list of its fields.  `json.Marshal` of a `gin.H` (a Go map) emits keys
in sorted order, hence `message`, `time`, `type`. -/
def serverBroadcastEnvelope (msg time : String) : List (String × String) :=
  [("message", msg), ("time", time), ("type", "server_broadcast")]

/-- What one call of the handler produced: the HTTP status written by
`c.JSON` and the payloads passed to `h.Broadcast`. -/
structure ApiOutcome where
  status : Nat
  broadcasts : List (List (String × String))
deriving DecidableEq, Repr

/-- main.go lines 17-33, `broadcastAPI`: bind the body; on error respond
400 `{"error": "message is required"}` and return; otherwise marshal
`{"type": "server_broadcast", "message": req.Message, "time": now}`
(with `now` = `time.Now().Format(time.RFC3339)`, passed in as an opaque
timestamp string), forward it to `h.Broadcast`, and respond 200
`{"ok": true}`. -/
def broadcastAPI (body : BroadcastBody) (now : String) : ApiOutcome :=
  match shouldBindJSON body with
  | .error _ => { status := 400, broadcasts := [] }
  | .ok s => { status := 200, broadcasts := [serverBroadcastEnvelope s now] }

/-! ### Derived definitions used by the proofs -/

/-- How one Dispatcher event transforms one already-present connection's
state (the per-connection view of `Hub.step`). -/
def eventConnStep (cap : Nat) (e : Event) (c : Conn) : Conn :=
  match e with
  | .register j => if c.id = j then { c with live := true } else c
  | .unregister j =>
      if c.id = j ∧ c.live = true then
        { c with live := false, closed := true, closeEvents := c.closeEvents + 1 }
      else c
  | .broadcast m => if c.live = true then sendStep cap m c else c

/-- The per-connection effect of a sequence of broadcast events. -/
def broadcastRun (cap : Nat) (ms : List Payload) (c : Conn) : Conn :=
  ms.foldl (fun a m => if a.live = true then sendStep cap m a else a) c

/-- The per-connection effect of an arbitrary sequence of Dispatcher
events. -/
def runConn (cap : Nat) (evs : List Event) (c : Conn) : Conn :=
  evs.foldl (fun a e => eventConnStep cap e a) c

/-- The close-at-most-once invariant for one connection: its channel has
seen at most one `close`, and none while it is still in the live map. -/
def closeInv (c : Conn) : Prop :=
  c.closeEvents ≤ 1 ∧ (c.live = true → c.closeEvents = 0)

instance closeInv_decidable (c : Conn) : Decidable (closeInv c) :=
  inferInstanceAs (Decidable (c.closeEvents ≤ 1 ∧ (c.live = true → c.closeEvents = 0)))

/-! ### Concrete states used by witnesses and counterexamples -/

/-- Options selecting a send-channel capacity of 1 (the claims'
"queue capacity N" at N = 1). -/
def capOneOpts : Options :=
  { SendCap := 1, MaxMessageSize := 8192, EnableCompression := false,
    CheckOrigin := none }

/-- A hub with capacity 1 and a single registered connection (id 0) with
an empty queue whose write loop is paused: in this sequential model the
write loop dequeues nothing, which is exactly a paused consumer. -/
def capOneHub : Hub :=
  { opts := capOneOpts,
    conns := [{ id := 0, queue := [], closed := false, closeEvents := 0, live := true }] }

/-- Three broadcasts — more than N + 1 = 2 of them — submitted while the
write loop of the connection in `capOneHub` is paused. -/
def threeBroadcasts : List Event :=
  [.broadcast [1], .broadcast [2], .broadcast [3]]

/-- The repository's own configuration (main.go lines 39-44): SendCap
and MaxMessageSize set, compression on, `CheckOrigin` left unset (the
commented-out line), so only the origin predicate is defaulted. -/
def mainGoOpts : Options :=
  { SendCap := 256, MaxMessageSize := 8192, EnableCompression := true,
    CheckOrigin := none }

/-- A configuration in which only `SendCap` is left unset. -/
def sendCapUnsetOpts : Options :=
  { SendCap := 0, MaxMessageSize := 4096, EnableCompression := false,
    CheckOrigin := some (fun _ => false) }

/-- A configuration in which only `MaxMessageSize` is left unset. -/
def maxSizeUnsetOpts : Options :=
  { SendCap := 256, MaxMessageSize := 0, EnableCompression := false,
    CheckOrigin := some (fun _ => false) }

/-- A capacity-2 hub with two live connections, used by witnesses. -/
def twoConnHub : Hub :=
  { opts := { capOneOpts with SendCap := 2 },
    conns := [{ id := 0, queue := [], closed := false, closeEvents := 0, live := true },
              { id := 1, queue := [[9]], closed := false, closeEvents := 0, live := true }] }

/-! ## Helper lemmas -/

theorem sendStep_id (cap : Nat) (msg : Payload) (c : Conn) :
    (sendStep cap msg c).id = c.id := by
  unfold sendStep
  split
  · rfl
  · cases c.queue <;> dsimp only <;> split <;> rfl

/-- On an open, within-capacity queue with positive capacity, the
backpressure step always enqueues the message: directly if there is
room, after dropping the oldest element otherwise.  Connection flags and
the close counter are untouched. -/
theorem sendStep_open (cap : Nat) (msg : Payload) (c : Conn)
    (hq : c.queue.length ≤ cap) (hcap : 1 ≤ cap) :
    sendStep cap msg c =
      { c with queue := (if c.queue.length < cap then c.queue else c.queue.tail) ++ [msg] } := by
  unfold sendStep
  by_cases h : c.queue.length < cap
  · simp [h]
  · cases hq' : c.queue with
    | nil =>
      exfalso
      rw [hq'] at h
      simp only [List.length_nil] at h
      omega
    | cons x rest =>
      rw [hq'] at h hq
      have h' : ¬ rest.length + 1 < cap := by simpa using h
      have hlt : rest.length < cap := by
        simp only [List.length_cons] at hq
        omega
      simp [h', hlt]

/-- With an open channel, the Go select cascade of `Hub.Run`'s broadcast
arm computes exactly the spec's three-step policy. -/
theorem sendStep_eq_spec (cap : Nat) (msg : Payload) (c : Conn)
    (hcl : c.closed = false) :
    sendStep cap msg c = broadcastPolicySpec cap msg c := by
  unfold sendStep broadcastPolicySpec specTryEnqueue specDropOldest
  by_cases h : c.queue.length < cap
  · simp [h, hcl]
  · cases hq' : c.queue with
    | nil =>
      rw [hq'] at h
      simp only [List.length_nil] at h
      simp [h, hcl, hq']
    | cons x rest =>
      rw [hq'] at h
      have h' : ¬ rest.length + 1 < cap := by
        simpa using h
      by_cases h2 : rest.length < cap <;>
        simp [h', h2, hcl, hq']

theorem findConn_map (h : Hub) (f : Conn → Conn) (hid : ∀ c, (f c).id = c.id) (i : Nat) :
    findConn { h with conns := h.conns.map f } i = (findConn h i).map f := by
  unfold findConn
  dsimp only
  rw [List.find?_map]
  have hpf : ((fun c => decide (c.id = i)) ∘ f) = (fun c : Conn => decide (c.id = i)) := by
    funext c
    simp [hid c]
  rw [hpf]

theorem find?_setLive (j i : Nat) (l : List Conn) :
    (setLive j l).find? (fun c => c.id = i) =
      (l.find? (fun c => c.id = i)).map
        (fun c => if c.id = j then { c with live := true } else c) := by
  induction l with
  | nil => rfl
  | cons c cs ih =>
    by_cases hcj : c.id = j
    · rw [setLive, if_pos hcj]
      by_cases hci : c.id = i
      · rw [List.find?_cons_of_pos _ (by simpa using hci),
            List.find?_cons_of_pos _ (by simpa using hci)]
        simp [hcj]
      · rw [List.find?_cons_of_neg _ (by simpa using hci),
            List.find?_cons_of_neg _ (by simpa using hci)]
        have hij : ¬ i = j := fun hij => hci (hcj.trans hij.symm)
        cases hf : cs.find? (fun c => c.id = i) with
        | none => simp
        | some x =>
          have hx : x.id = i := by simpa using List.find?_some hf
          have hxj : ¬ x.id = j := fun h' => hij (hx.symm.trans h')
          simp [hxj]
    · rw [setLive, if_neg hcj]
      by_cases hci : c.id = i
      · rw [List.find?_cons_of_pos _ (by simpa using hci),
            List.find?_cons_of_pos _ (by simpa using hci)]
        simp [hcj]
      · rw [List.find?_cons_of_neg _ (by simpa using hci),
            List.find?_cons_of_neg _ (by simpa using hci)]
        exact ih

theorem findConn_id (h : Hub) (i : Nat) (c : Conn) (hc : findConn h i = some c) :
    c.id = i := by
  simpa using List.find?_some hc

/-- `Hub.step` acts on a connection already present in the state exactly
as `eventConnStep` describes, whatever the event. -/
theorem findConn_step (h : Hub) (e : Event) (i : Nat) (c : Conn)
    (hc : findConn h i = some c) :
    findConn (h.step e) i = some (eventConnStep h.cap e c) := by
  have hci : c.id = i := findConn_id h i c hc
  cases e with
  | register j =>
    show findConn (h.doRegister j) i = _
    unfold Hub.doRegister
    by_cases hj : h.conns.any (fun c => c.id = j)
    · simp only [if_pos hj]
      unfold findConn at hc ⊢
      dsimp only
      rw [find?_setLive, hc]
      rfl
    · simp only [if_neg hj]
      have hcj : ¬ c.id = j := by
        intro hj'
        apply hj
        rw [List.any_eq_true]
        exact ⟨c, List.mem_of_find?_eq_some hc, by simpa using hj'⟩
      unfold findConn at hc ⊢
      dsimp only
      rw [List.find?_append, hc]
      simp [eventConnStep, hcj]
  | unregister j =>
    show findConn (h.doUnregister j) i = _
    unfold Hub.doUnregister
    rw [findConn_map]
    · rw [hc]; rfl
    · intro c'
      by_cases hb : c'.id = j ∧ c'.live = true <;> simp [hb]
  | broadcast m =>
    show findConn (h.doBroadcast m) i = _
    unfold Hub.doBroadcast
    rw [findConn_map]
    · rw [hc]; rfl
    · intro c'
      by_cases hb : c'.live = true <;> simp [hb, sendStep_id]

theorem cap_step (h : Hub) (e : Event) : (h.step e).cap = h.cap := by
  cases e with
  | register j =>
    show (h.doRegister j).cap = h.cap
    unfold Hub.doRegister
    by_cases hj : h.conns.any (fun c => c.id = j) <;> simp [hj, Hub.cap]
  | unregister j => rfl
  | broadcast m => rfl

theorem closeInv_sendStep (cap : Nat) (m : Payload) (c : Conn)
    (hce : c.closeEvents = 0) : closeInv (sendStep cap m c) := by
  unfold sendStep closeInv
  split
  · simp [hce]
  · cases c.queue <;> dsimp only <;> split <;> simp [hce]

theorem closeInv_eventConnStep (cap : Nat) (e : Event) (c : Conn)
    (hinv : closeInv c) (hreg : ∀ j, e = .register j → ¬ c.id = j) :
    closeInv (eventConnStep cap e c) := by
  obtain ⟨h1, h2⟩ := hinv
  cases e with
  | register j =>
    have hj := hreg j rfl
    have heq : eventConnStep cap (.register j) c = c := by simp [eventConnStep, hj]
    rw [heq]
    exact ⟨h1, h2⟩
  | unregister j =>
    by_cases hb : c.id = j ∧ c.live = true
    · have hce : c.closeEvents = 0 := h2 hb.2
      simp [eventConnStep, hb, closeInv, hce]
    · have heq : eventConnStep cap (.unregister j) c = c := by simp [eventConnStep, hb]
      rw [heq]
      exact ⟨h1, h2⟩
  | broadcast m =>
    by_cases hl : c.live = true
    · have hce : c.closeEvents = 0 := h2 hl
      have heq : eventConnStep cap (.broadcast m) c = sendStep cap m c := by
        simp [eventConnStep, hl]
      rw [heq]
      exact closeInv_sendStep cap m c hce
    · have heq : eventConnStep cap (.broadcast m) c = c := by simp [eventConnStep, hl]
      rw [heq]
      exact ⟨h1, h2⟩

/-- As long as a connection identity is never re-registered, every
Dispatcher run keeps its close-at-most-once invariant. -/
theorem run_closeInv (evs : List Event) : ∀ (h : Hub) (i : Nat) (c : Conn),
    findConn h i = some c → closeInv c → Event.register i ∉ evs →
    ∃ c', findConn (h.run evs) i = some c' ∧ closeInv c' := by
  induction evs with
  | nil => exact fun h i c hc hinv _ => ⟨c, hc, hinv⟩
  | cons e evs ih =>
    intro h i c hc hinv hmem
    have hstep := findConn_step h e i c hc
    have hinv' : closeInv (eventConnStep h.cap e c) := by
      refine closeInv_eventConnStep h.cap e c hinv (fun j he hij => hmem ?_)
      have hid := findConn_id h i c hc
      have hij' : i = j := by rw [← hid]; exact hij
      rw [he, ← hij']
      exact List.mem_cons_self _ _
    exact ih (h.step e) i _ hstep hinv' (fun hm => hmem (List.mem_cons_of_mem _ hm))

/-- A run of the Dispatcher acts on a connection already present in the
state as the per-connection fold `runConn` (the channel capacity is
fixed for the hub's lifetime). -/
theorem findConn_run (evs : List Event) : ∀ (h : Hub) (i : Nat) (c : Conn),
    findConn h i = some c →
    findConn (h.run evs) i = some (runConn h.cap evs c) := by
  induction evs with
  | nil => exact fun h i c hc => hc
  | cons e evs ih =>
    intro h i c hc
    have h1 := findConn_step h e i c hc
    have h2 := ih (h.step e) i _ h1
    rw [cap_step] at h2
    exact h2

theorem suffix_append_same {a b t : List Payload} (h : a <:+ b) :
    a ++ t <:+ b ++ t := by
  obtain ⟨s, rfl⟩ := h
  exact ⟨s, by simp⟩

theorem getLast?_cons_ne {α : Type} (a : α) (l : List α) (h : l ≠ []) :
    (a :: l).getLast? = l.getLast? := by
  cases l with
  | nil => exact absurd rfl h
  | cons b t => simp [List.getLast?]

theorem findConn_doBroadcast (h : Hub) (m : Payload) (i : Nat) :
    findConn (h.doBroadcast m) i =
      (findConn h i).map (fun c => if c.live = true then sendStep h.cap m c else c) := by
  unfold Hub.doBroadcast
  exact findConn_map h _
    (fun c => by by_cases hb : c.live = true <;> simp [hb, sendStep_id]) i

/-- Over a run consisting only of broadcast events, the Dispatcher acts
on each connection independently, as the per-connection fold
`broadcastRun`. -/
theorem findConn_run_broadcasts (ms : List Payload) : ∀ (h : Hub) (i : Nat),
    findConn (h.run (ms.map Event.broadcast)) i =
      (findConn h i).map (broadcastRun h.cap ms) := by
  induction ms with
  | nil =>
    intro h i
    show findConn h i = (findConn h i).map (broadcastRun h.cap [])
    have hid : broadcastRun h.cap [] = fun c => c := rfl
    rw [hid]
    cases findConn h i <;> rfl
  | cons m ms ih =>
    intro h i
    have hrun : h.run ((m :: ms).map Event.broadcast) =
        (h.doBroadcast m).run (ms.map Event.broadcast) := rfl
    rw [hrun, ih (h.doBroadcast m) i]
    have hcap : (h.doBroadcast m).cap = h.cap := rfl
    rw [hcap, findConn_doBroadcast, Option.map_map]
    cases findConn h i <;> simp [broadcastRun]

/-- The workhorse invariant: with positive capacity, an open live
connection survives any sequence of broadcasts unclosed and un-evicted;
its queue stays within capacity, is always a suffix of the original
queue followed by the submitted payloads in submission order, and ends
with the most recently submitted payload. -/
theorem broadcastRun_inv (cap : Nat) (hcap : 1 ≤ cap) (ms : List Payload) :
    ∀ (c : Conn), c.live = true → c.closed = false → c.queue.length ≤ cap →
    (broadcastRun cap ms c).live = true ∧
    (broadcastRun cap ms c).closed = false ∧
    (broadcastRun cap ms c).closeEvents = c.closeEvents ∧
    (broadcastRun cap ms c).queue.length ≤ cap ∧
    (broadcastRun cap ms c).queue <:+ c.queue ++ ms ∧
    (ms ≠ [] → (broadcastRun cap ms c).queue.getLast? = ms.getLast?) := by
  induction ms with
  | nil =>
    intro c hl hcl hq
    refine ⟨hl, hcl, rfl, hq, ?_, fun hne => absurd rfl hne⟩
    simp [broadcastRun]
  | cons m ms ih =>
    intro c hl hcl hq
    have hstep : broadcastRun cap (m :: ms) c = broadcastRun cap ms (sendStep cap m c) := by
      simp [broadcastRun, hl]
    have hsend := sendStep_open cap m c hq hcap
    have hq1 : (sendStep cap m c).queue =
        (if c.queue.length < cap then c.queue else c.queue.tail) ++ [m] := by
      rw [hsend]
    have hlive1 : (sendStep cap m c).live = true := by rw [hsend]; exact hl
    have hcl1 : (sendStep cap m c).closed = false := by rw [hsend]; exact hcl
    have hce1 : (sendStep cap m c).closeEvents = c.closeEvents := by rw [hsend]
    have hlen1 : (sendStep cap m c).queue.length ≤ cap := by
      rw [hq1, List.length_append]
      by_cases hlt : c.queue.length < cap
      · rw [if_pos hlt]
        simp only [List.length_cons, List.length_nil]
        omega
      · rw [if_neg hlt]
        have hne : c.queue ≠ [] := by
          intro h0
          rw [h0] at hlt
          exact hlt (by simpa using hcap)
        have hpos : 1 ≤ c.queue.length := List.length_pos.mpr hne
        simp only [List.length_tail, List.length_cons, List.length_nil]
        omega
    obtain ⟨r1, r2, r3, r4, r5, r6⟩ := ih (sendStep cap m c) hlive1 hcl1 hlen1
    rw [hstep]
    refine ⟨r1, r2, by rw [r3, hce1], r4, ?_, ?_⟩
    · refine r5.trans ?_
      rw [hq1]
      have hsuf : (if c.queue.length < cap then c.queue else c.queue.tail) <:+ c.queue := by
        by_cases hlt : c.queue.length < cap
        · simp [hlt]
        · simp only [if_neg hlt]
          exact List.tail_suffix c.queue
      have h1 : ((if c.queue.length < cap then c.queue else c.queue.tail) ++ [m]) ++ ms <:+
          (c.queue ++ [m]) ++ ms :=
        suffix_append_same (suffix_append_same hsuf)
      have h2 : (c.queue ++ [m]) ++ ms = c.queue ++ (m :: ms) := by simp
      rw [← h2]
      exact h1
    · intro _
      cases ms with
      | nil =>
        show (sendStep cap m c).queue.getLast? = (m :: []).getLast?
        rw [hq1]
        simp [List.getLast?_concat]
      | cons m2 ms2 =>
        rw [r6 (by simp)]
        rw [getLast?_cons_ne m (m2 :: ms2) (by simp)]

/-! ## Claim theorems -/

/-- Claim C1: for every broadcast payload processed by the Dispatcher
loop, every connection in the live set is handled by exactly the
three-step backpressure policy (non-blocking enqueue; on a full queue a
best-effort drop of the oldest entry and one retry; on a failed retry
close the queue and remove the connection), as written in the spec's own
words in `broadcastPolicySpec`.  The hypothesis is the loop's maintained
invariant that live connections' channels are open (every `close` in
`Hub.Run` is paired with a `delete` from the map). -/
theorem broadcast_three_step_policy (h : Hub) (msg : Payload)
    (hinv : ∀ c ∈ h.conns, c.live = true → c.closed = false) :
    (h.step (.broadcast msg)).conns =
      h.conns.map (fun c => if c.live = true then broadcastPolicySpec h.cap msg c else c) := by
  show (h.doBroadcast msg).conns = _
  unfold Hub.doBroadcast
  dsimp only
  apply List.map_congr_left
  intro c hcmem
  by_cases hl : c.live = true
  · rw [if_pos hl, if_pos hl, sendStep_eq_spec h.cap msg c (hinv c hcmem hl)]
  · rw [if_neg hl, if_neg hl]

/-- Witness for C1 at a concrete two-connection hub. -/
theorem broadcast_three_step_policy_witness :
    (twoConnHub.step (.broadcast [7])).conns =
      twoConnHub.conns.map
        (fun c => if c.live = true then broadcastPolicySpec twoConnHub.cap [7] c else c) :=
  broadcast_three_step_policy twoConnHub [7] (by decide)

/-- Counterexample to claim C2: a connection with queue capacity N = 1
and a paused write loop receives three broadcasts (more than N + 1 = 2),
yet it is NOT removed from the live set and sees NO queue-close event:
with capacity ≥ 1 the drop-oldest step always frees a slot, so the
retry always succeeds and the eviction branch is unreachable.  The final
state keeps connection 0 live with zero close events and the most recent
payload queued. -/
theorem backpressure_eviction_cex :
    ¬ ((((capOneHub.run threeBroadcasts).conns.any fun c => c.id == 0 && c.live) = false) ∧
       ((capOneHub.run threeBroadcasts).conns.map Conn.closeEvents) = [1]) ∧
    findConn (capOneHub.run threeBroadcasts) 0 =
      some { id := 0, queue := [[3]], closed := false, closeEvents := 0, live := true } := by
  decide

/-- Amended claim C2: with a paused write loop and queue capacity N ≥ 1,
submitting more than N + 1 broadcasts leaves the connection in the live
set with its queue-close count unchanged (no close event); each
over-capacity broadcast drops the oldest queued payload and re-enqueues,
keeping the queue within capacity.  (Forced eviction is reachable only
with capacity 0.) -/
theorem backpressure_drop_oldest_keeps_conn (h : Hub) (i : Nat) (c : Conn)
    (ms : List Payload) (hc : findConn h i = some c) (hl : c.live = true)
    (hcl : c.closed = false) (hq : c.queue.length ≤ h.cap) (hcap : 1 ≤ h.cap)
    (hn : h.cap + 1 < ms.length) :
    findConn (h.run (ms.map Event.broadcast)) i = some (broadcastRun h.cap ms c) ∧
    (broadcastRun h.cap ms c).live = true ∧
    (broadcastRun h.cap ms c).closed = false ∧
    (broadcastRun h.cap ms c).closeEvents = c.closeEvents ∧
    (broadcastRun h.cap ms c).queue.length ≤ h.cap := by
  obtain ⟨r1, r2, r3, r4, _, _⟩ := broadcastRun_inv h.cap hcap ms c hl hcl hq
  refine ⟨?_, r1, r2, r3, r4⟩
  rw [findConn_run_broadcasts, hc]
  rfl

/-- Witness for the amended C2: capacity 1, paused connection 0, three
broadcasts; the connection stays live with zero close events. -/
theorem backpressure_drop_oldest_keeps_conn_witness :
    findConn (capOneHub.run ([[1], [2], [3]].map Event.broadcast)) 0 =
      some (broadcastRun capOneHub.cap [[1], [2], [3]]
        { id := 0, queue := [], closed := false, closeEvents := 0, live := true }) ∧
    (broadcastRun capOneHub.cap [[1], [2], [3]]
      { id := 0, queue := [], closed := false, closeEvents := 0, live := true }).live = true ∧
    (broadcastRun capOneHub.cap [[1], [2], [3]]
      { id := 0, queue := [], closed := false, closeEvents := 0, live := true }).closed = false ∧
    (broadcastRun capOneHub.cap [[1], [2], [3]]
      { id := 0, queue := [], closed := false, closeEvents := 0, live := true }).closeEvents =
      ({ id := 0, queue := [], closed := false, closeEvents := 0, live := true } : Conn).closeEvents ∧
    (broadcastRun capOneHub.cap [[1], [2], [3]]
      { id := 0, queue := [], closed := false, closeEvents := 0, live := true }).queue.length ≤
      capOneHub.cap :=
  backpressure_drop_oldest_keeps_conn capOneHub 0
    { id := 0, queue := [], closed := false, closeEvents := 0, live := true }
    [[1], [2], [3]] rfl rfl rfl (by decide) (by decide) (by decide)

/-- Claim C3: over any sequence of broadcasts, a live open connection's
queue evolves so that submitted payloads are enqueued in submission
order: the queue is always a suffix of the original queue followed by
the submitted payloads in order (only oldest entries are discarded, by
the drop-oldest rule), and after a non-empty sequence the newest
submission is at the tail. -/
theorem broadcast_order_preserved (h : Hub) (i : Nat) (c : Conn) (ms : List Payload)
    (hc : findConn h i = some c) (hl : c.live = true) (hcl : c.closed = false)
    (hq : c.queue.length ≤ h.cap) (hcap : 1 ≤ h.cap) :
    findConn (h.run (ms.map Event.broadcast)) i = some (broadcastRun h.cap ms c) ∧
    (broadcastRun h.cap ms c).live = true ∧
    (broadcastRun h.cap ms c).queue <:+ c.queue ++ ms ∧
    (ms ≠ [] → (broadcastRun h.cap ms c).queue.getLast? = ms.getLast?) := by
  obtain ⟨r1, _, _, _, r5, r6⟩ := broadcastRun_inv h.cap hcap ms c hl hcl hq
  refine ⟨?_, r1, r5, r6⟩
  rw [findConn_run_broadcasts, hc]
  rfl

/-- Witness for C3: two broadcasts onto a capacity-2 connection that
already holds one payload; order is preserved. -/
theorem broadcast_order_preserved_witness :
    findConn (twoConnHub.run ([[1], [2]].map Event.broadcast)) 1 =
      some (broadcastRun twoConnHub.cap [[1], [2]]
        { id := 1, queue := [[9]], closed := false, closeEvents := 0, live := true }) ∧
    (broadcastRun twoConnHub.cap [[1], [2]]
      { id := 1, queue := [[9]], closed := false, closeEvents := 0, live := true }).live = true ∧
    (broadcastRun twoConnHub.cap [[1], [2]]
      { id := 1, queue := [[9]], closed := false, closeEvents := 0, live := true }).queue <:+
      ({ id := 1, queue := [[9]], closed := false, closeEvents := 0, live := true } : Conn).queue
        ++ [[1], [2]] ∧
    ([[1], [2]] ≠ ([] : List Payload) →
      (broadcastRun twoConnHub.cap [[1], [2]]
        { id := 1, queue := [[9]], closed := false, closeEvents := 0, live := true }).queue.getLast? =
        [[1], [2]].getLast?) :=
  broadcast_order_preserved twoConnHub 1
    { id := 1, queue := [[9]], closed := false, closeEvents := 0, live := true }
    [[1], [2]] rfl rfl rfl (by decide) (by decide)

/-- Claim C4: unregistering a live connection removes it from the live
set and closes its queue exactly once; unregistering an absent (or
already-unregistered) connection is a no-op that changes nothing and
never closes a queue again; hence — as long as a connection identity is
registered at most once, the documented caller contract — its queue is
closed at most once across any sequence of Dispatcher events. -/
theorem unregister_idempotent (h : Hub) (i : Nat) :
    (∀ c, findConn h i = some c → c.live = true →
       findConn (h.step (.unregister i)) i =
         some { c with live := false, closed := true, closeEvents := c.closeEvents + 1 }) ∧
    ((∀ c ∈ h.conns, c.id = i → c.live = false) → h.step (.unregister i) = h) ∧
    ((h.step (.unregister i)).step (.unregister i) = h.step (.unregister i)) ∧
    (∀ evs c, findConn h i = some c → closeInv c → Event.register i ∉ evs →
       findConn (h.run evs) i = some (runConn h.cap evs c) ∧
       (runConn h.cap evs c).closeEvents ≤ 1) := by
  have noop : ∀ (g : Hub), (∀ c ∈ g.conns, c.id = i → c.live = false) →
      g.step (.unregister i) = g := by
    intro g hall
    show g.doUnregister i = g
    unfold Hub.doUnregister
    have hmap : g.conns.map (fun c =>
        if c.id = i ∧ c.live = true then
          { c with live := false, closed := true, closeEvents := c.closeEvents + 1 }
        else c) = g.conns := by
      conv_rhs => rw [← List.map_id g.conns]
      apply List.map_congr_left
      intro c hcm
      have hb : ¬ (c.id = i ∧ c.live = true) := by
        rintro ⟨ha, hb⟩
        rw [hall c hcm ha] at hb
        exact Bool.false_ne_true hb
      rw [if_neg hb]
      rfl
    rw [hmap]
  refine ⟨?_, noop h, ?_, ?_⟩
  · intro c hc hl
    have hstep := findConn_step h (.unregister i) i c hc
    rw [hstep]
    have hid : c.id = i := findConn_id h i c hc
    simp [eventConnStep, hid, hl]
  · apply noop
    intro c' hc' hid'
    have hc2 : c' ∈ h.conns.map (fun c =>
        if c.id = i ∧ c.live = true then
          { c with live := false, closed := true, closeEvents := c.closeEvents + 1 }
        else c) := hc'
    simp only [List.mem_map] at hc2
    obtain ⟨c, hcm, hcc⟩ := hc2
    by_cases hb : c.id = i ∧ c.live = true
    · rw [if_pos hb] at hcc
      rw [← hcc]
    · rw [if_neg hb] at hcc
      subst hcc
      rcases Bool.eq_false_or_eq_true c.live with hf | ht
      · exact absurd ⟨hid', hf⟩ hb
      · exact ht
  · intro evs c hc hcinv hreg
    refine ⟨findConn_run evs h i c hc, ?_⟩
    obtain ⟨c', hc', hinv'⟩ := run_closeInv evs h i c hc hcinv hreg
    have := findConn_run evs h i c hc
    rw [this] at hc'
    have hcc : runConn h.cap evs c = c' := Option.some.inj hc'
    rw [hcc]
    exact hinv'.1

/-- Witness for C4: a hub with one live connection; the first unregister
closes and removes it, the second is a no-op, and over the whole
two-event run the close counter stays at 1. -/
theorem unregister_idempotent_witness :
    findConn (capOneHub.step (.unregister 0)) 0 =
      some { id := 0, queue := [], closed := true, closeEvents := 1, live := false } ∧
    ((capOneHub.step (.unregister 0)).step (.unregister 0) = capOneHub.step (.unregister 0)) ∧
    (runConn capOneHub.cap [Event.unregister 0, Event.unregister 0]
        { id := 0, queue := [], closed := false, closeEvents := 0, live := true }).closeEvents ≤ 1 := by
  refine ⟨?_, ?_, ?_⟩
  · exact (unregister_idempotent capOneHub 0).1
      { id := 0, queue := [], closed := false, closeEvents := 0, live := true } rfl rfl
  · exact (unregister_idempotent capOneHub 0).2.2.1
  · exact ((unregister_idempotent capOneHub 0).2.2.2
      [Event.unregister 0, Event.unregister 0]
      { id := 0, queue := [], closed := false, closeEvents := 0, live := true }
      rfl (by decide) (by decide)).2

theorem withDefaults_fields (o : Options) :
    o.withDefaults.SendCap = (if o.SendCap ≤ 0 then 128 else o.SendCap) ∧
    o.withDefaults.MaxMessageSize =
      (if o.MaxMessageSize ≤ 0 then 8192 else o.MaxMessageSize) ∧
    o.withDefaults.CheckOrigin =
      (match o.CheckOrigin with
       | none => some (fun _ => true)
       | some f => some f) := by
  obtain ⟨sc, mm, ec, co⟩ := o
  unfold Options.withDefaults
  by_cases hs : sc ≤ 0 <;> by_cases hm : mm ≤ 0 <;> cases co <;> simp [hs, hm]

/-- Claim C5: the three `withDefaults` substitutions are independent —
for every configuration passed to `NewHub`, each field that is left
unset (its Go zero value, or anything non-positive for the int fields;
`nil` for the predicate) is defaulted on its own, regardless of the
other fields: unset `SendCap` gives queue capacity 128, unset
`MaxMessageSize` gives a maximum frame size of 8192 bytes, unset
`CheckOrigin` gives an origin predicate accepting every request; a nil
`opts` pointer (all fields unset) gets all three defaults. -/
theorem newhub_defaults (o : Options) :
    (o.SendCap ≤ 0 →
      (NewHub (some o)).opts.SendCap = 128 ∧ (NewHub (some o)).cap = 128) ∧
    (o.MaxMessageSize ≤ 0 → (NewHub (some o)).opts.MaxMessageSize = 8192) ∧
    (o.CheckOrigin = none →
      ∃ f, (NewHub (some o)).opts.CheckOrigin = some f ∧ ∀ r, f r = true) ∧
    (NewHub none).opts.SendCap = 128 ∧
    (NewHub none).cap = 128 ∧
    (NewHub none).opts.MaxMessageSize = 8192 ∧
    (∃ g, (NewHub none).opts.CheckOrigin = some g ∧ ∀ r, g r = true) := by
  obtain ⟨f1, f2, f3⟩ := withDefaults_fields o
  have hopts : (NewHub (some o)).opts = o.withDefaults := rfl
  refine ⟨fun hs => ⟨?_, ?_⟩, fun hm => ?_, fun ho => ?_, rfl, rfl, rfl,
    ⟨fun _ => true, rfl, fun _ => rfl⟩⟩
  · rw [hopts, f1, if_pos hs]
  · show (NewHub (some o)).opts.SendCap.toNat = 128
    rw [hopts, f1, if_pos hs]
    rfl
  · rw [hopts, f2, if_pos hm]
  · refine ⟨fun _ => true, ?_, fun _ => rfl⟩
    rw [hopts, f3, ho]

/-- Witness for C5, one configuration per field: a config with only
`SendCap` unset, one with only `MaxMessageSize` unset, and the
repository's own main.go config with only `CheckOrigin` unset. -/
theorem newhub_defaults_witness :
    ((NewHub (some sendCapUnsetOpts)).opts.SendCap = 128 ∧
      (NewHub (some sendCapUnsetOpts)).cap = 128) ∧
    (NewHub (some maxSizeUnsetOpts)).opts.MaxMessageSize = 8192 ∧
    (∃ f, (NewHub (some mainGoOpts)).opts.CheckOrigin = some f ∧ ∀ r, f r = true) ∧
    (NewHub none).opts.SendCap = 128 :=
  ⟨(newhub_defaults sendCapUnsetOpts).1 (by decide),
   (newhub_defaults maxSizeUnsetOpts).2.1 (by decide),
   (newhub_defaults mainGoOpts).2.2.1 rfl,
   (newhub_defaults mainGoOpts).2.2.2.1⟩

/-- Claim C6: a request body carrying the required non-empty `message`
string is answered 200 and forwards to `Dispatcher.Broadcast` exactly
one payload, the marshalled object with exactly the fields
`message`, `time`, `type` = `server_broadcast` (field set per the
envelope; `json.Marshal` of the Go map emits them in sorted key order);
a body missing `message` is answered 400 with no broadcast.  (Per the
`binding:"required"` semantics — see claim C8 — an empty string counts
as missing, hence the non-emptiness hypothesis.) -/
theorem broadcast_api_contract (s now : String) (hs : ¬ s = "") :
    broadcastAPI (.message s) now =
      { status := 200,
        broadcasts := [[("message", s), ("time", now), ("type", "server_broadcast")]] } ∧
    broadcastAPI .noMessage now = { status := 400, broadcasts := [] } := by
  constructor
  · simp [broadcastAPI, shouldBindJSON, serverBroadcastEnvelope, hs]
  · rfl

/-- Witness for C6 at body `{"message":"hi"}` and a fixed timestamp. -/
theorem broadcast_api_contract_witness :
    broadcastAPI (.message "hi") "2026-10-11T00:00:00Z" =
      { status := 200,
        broadcasts :=
          [[("message", "hi"), ("time", "2026-10-11T00:00:00Z"),
            ("type", "server_broadcast")]] } ∧
    broadcastAPI .noMessage "2026-10-11T00:00:00Z" = { status := 400, broadcasts := [] } :=
  broadcast_api_contract "hi" "2026-10-11T00:00:00Z" (by decide)

/-- Claim C7: the write loop's ping interval is 90% of the read loop's
pong timeout; with the configured 60-second timeout the probe fires
every 54 seconds. -/
theorem ping_period_ratio :
    pingPeriod = (pongWait * 9) / 10 ∧
    pingPeriod * 10 = pongWait * 9 ∧
    pongWait = 60 * second ∧
    pingPeriod = 54 * second := by
  refine ⟨rfl, ?_, rfl, ?_⟩ <;> decide

/-- Claim C8: a body with `message` bound to the empty string is
rejected 400 with no broadcast — gin's `binding:"required"` treats the
string zero value as missing — while any non-empty message is accepted
with status 200. -/
theorem empty_message_rejected (now s : String) (hs : ¬ s = "") :
    broadcastAPI (.message "") now = { status := 400, broadcasts := [] } ∧
    (broadcastAPI (.message s) now).status = 200 := by
  constructor
  · rfl
  · simp [broadcastAPI, shouldBindJSON, hs]

/-- Witness for C8 at `{"message":""}` versus `{"message":"hi"}`. -/
theorem empty_message_rejected_witness :
    broadcastAPI (.message "") "2026-10-11T00:00:00Z" = { status := 400, broadcasts := [] } ∧
    (broadcastAPI (.message "hi") "2026-10-11T00:00:00Z").status = 200 :=
  empty_message_rejected "2026-10-11T00:00:00Z" "hi" (by decide)

/-- Claim C9: the write loop writes every delivered payload as a text
frame, and the read loop discards the inbound frame type before
forwarding, so a binary inbound frame is relayed as a text frame with
the same bytes. -/
theorem relayed_frames_are_text (f : Frame) :
    writePumpFrame (some (readPumpForward f)) = { typ := TextMessage, data := f.data } ∧
    writePumpFrame (some (readPumpForward { typ := BinaryMessage, data := f.data })) =
      { typ := TextMessage, data := f.data } :=
  ⟨rfl, rfl⟩

/-- Claim C10: the fan-out loop iterates the whole live set without
excluding the payload's originator: broadcasting the bytes that
connection `i`'s read loop forwarded applies the enqueue step to
connection `i` itself, and when its queue has room its own message is
appended to its own queue. -/
theorem fanout_includes_sender (h : Hub) (i : Nat) (c : Conn) (f : Frame)
    (hc : findConn h i = some c) (hl : c.live = true) :
    findConn (h.step (.broadcast (readPumpForward f))) i =
      some (sendStep h.cap (readPumpForward f) c) ∧
    (c.queue.length < h.cap →
      (sendStep h.cap (readPumpForward f) c).queue = c.queue ++ [f.data]) := by
  constructor
  · have hstep := findConn_step h (.broadcast (readPumpForward f)) i c hc
    rw [hstep]
    simp [eventConnStep, hl]
  · intro hlt
    unfold sendStep
    rw [if_pos hlt]
    rfl

/-- Witness for C10: connection 0 of the two-connection hub broadcasts a
binary frame and receives its own bytes back on its own queue. -/
theorem fanout_includes_sender_witness :
    findConn (twoConnHub.step (.broadcast
        (readPumpForward { typ := BinaryMessage, data := [5] }))) 0 =
      some (sendStep twoConnHub.cap
        (readPumpForward { typ := BinaryMessage, data := [5] })
        { id := 0, queue := [], closed := false, closeEvents := 0, live := true }) ∧
    (({ id := 0, queue := [], closed := false, closeEvents := 0, live := true } : Conn).queue.length
        < twoConnHub.cap →
      (sendStep twoConnHub.cap
        (readPumpForward { typ := BinaryMessage, data := [5] })
        { id := 0, queue := [], closed := false, closeEvents := 0, live := true }).queue =
      ({ id := 0, queue := [], closed := false, closeEvents := 0, live := true } : Conn).queue
        ++ [({ typ := BinaryMessage, data := [5] } : Frame).data]) :=
  fanout_includes_sender twoConnHub 0
    { id := 0, queue := [], closed := false, closeEvents := 0, live := true }
    { typ := BinaryMessage, data := [5] } rfl rfl

end GoGinWs
